import Mathlib

/-! Shallow embedding of `to_do_overs/app_functions/to_do_overs_data.py`
(Habitica To Do Overs): a session controller for password/token login,
task creation and editing, and synchronisation of a user's remote tag
list into a local keyed store.

Modelling conventions:
* HTTP is modelled by passing the remote response in as an argument and
  returning the outgoing request(s) in the result, so that theorems can
  talk about both the request bodies and the state transition.
* The persistence layer (Django `Users` and `Tags` models) is modelled as
  lists of records; `update_or_create` is a keyed upsert on the unique key
  and `filter(...).delete()` is a keyed delete.
* Byte-encoding calls (`encode('utf-8')`, `encode('unicode_escape')`) are
  modelled as the identity on strings.
* `datetime.now()` is an extra `now : Nat` argument (seconds); rendering a
  timestamp with `isoformat` is modelled as decimal rendering. -/

/-- Persisted user record (the `Users` model): unique key `user_id`,
with the stored username and the encrypted API key. -/
structure UserRecord where
  user_id : String
  username : String
  api_key : String
deriving DecidableEq, Repr

/-- Persisted tag record (the `Tags` model): unique key `tag_id`; the
`tag_owner` foreign key is modelled by the owning user's `user_id`. -/
structure TagRecord where
  tag_id : String
  tag_owner : String
  tag_text : String
deriving DecidableEq, Repr

/-- The persisted store: the two record tables. -/
structure Database where
  users : List UserRecord
  tags : List TagRecord
deriving DecidableEq, Repr

/-- Session state, mirroring the attributes set in `ToDoOversData.__init__`. -/
structure Session where
  username : String
  hab_user_id : String
  api_token : String
  logged_in : Bool
  tags : List String
  task_name : String
  task_days : Int
  task_delay : Int
  task_id : String
  priority : String
  notes : String
  return_code : Nat
deriving DecidableEq, Repr

/-- One remote tag as reported by `GET /tags` (JSON fields `id`, `name`). -/
structure RemoteTag where
  id : String
  name : String
deriving DecidableEq, Repr

/-- Response to `POST /user/auth/local/login`: status code plus the fields
read out of the JSON body's `data` object on success. -/
structure LoginResponse where
  status : Nat
  data_id : String
  data_apiToken : String
  data_username : String
deriving DecidableEq, Repr

/-- Response to `GET /user`: status code plus `data.profile.name`. -/
structure UserResponse where
  status : Nat
  profile_name : String
deriving DecidableEq, Repr

/-- Response to a task create (`POST /tasks/user`) or edit
(`PUT /tasks/{id}`): status code plus `data.id`. -/
structure TaskResponse where
  status : Nat
  data_id : String
deriving DecidableEq, Repr

/-- Response to `GET /tags`: status code plus the `data` list of tags. -/
structure TagsResponse where
  status : Nat
  data : List RemoteTag
deriving DecidableEq, Repr

/-- An outgoing task create/edit HTTP request (target URL plus body fields);
`date = none` exactly when the body omits the due-date field, and
`task_type = none` when the body carries no `type` field (edit). -/
structure TaskRequest where
  url : String
  text : String
  task_type : Option String
  notes : String
  date : Option String
  priority : String
  tags : List String
deriving DecidableEq, Repr

/-- Modelled from the spec: Credential Codec encryption
(`cipher_functions.encrypt_text`, not under `src/`).  The codec is an
external collaborator; an identity pair on token strings is all the
claims use of it. -/
def encrypt_text (s : String) : String := s

/-- Modelled from the spec: Credential Codec decryption
(`cipher_functions.decrypt_text`, not under `src/`), inverse of
`encrypt_text`. -/
def decrypt_text (s : String) : String := s

/-- Model of `datetime.isoformat()` on a timestamp: an injective rendering
of the time value to a string. -/
def isoformat (t : Nat) : String := toString t

/-- Model of `datetime.now() + timedelta(days=d)` with `now` in seconds. -/
def add_days (now : Nat) (d : Int) : Nat := now + 86400 * d.toNat

/-- `Users.objects.update_or_create(user_id=uid, defaults={api_key,
username})`: update the record carrying the unique key `uid` in place, or
append a fresh one. -/
def upsertUser : List UserRecord → String → String → String → List UserRecord
  | [], uid, uname, key => [⟨uid, uname, key⟩]
  | u :: rest, uid, uname, key =>
    if u.user_id = uid then ⟨uid, uname, key⟩ :: rest
    else u :: upsertUser rest uid uname key

/-- `Tags.objects.update_or_create(tag_id=i, defaults={tag_owner,
tag_text})`: update the record carrying the unique key `i` in place, or
append a fresh one. -/
def upsertTag : List TagRecord → String → String → String → List TagRecord
  | [], i, owner, text => [⟨i, owner, text⟩]
  | t :: rest, i, owner, text =>
    if t.tag_id = i then ⟨i, owner, text⟩ :: rest
    else t :: upsertTag rest i owner text

/-- `Tags.objects.filter(tag_id=i).delete()`. -/
def deleteTag (db : List TagRecord) (i : String) : List TagRecord :=
  db.filter (fun t => t.tag_id != i)

/-- The deletion pass of `get_user_tags`: delete every leftover local tag
id in turn. -/
def deleteTags : List TagRecord → List String → List TagRecord
  | db, [] => db
  | db, i :: rest => deleteTags (deleteTag db i) rest

/-- The local tag ids read at the start of `get_user_tags`
(`current_tag_ids`): the ids of the tag records owned by `uid`. -/
def localIds (db : Database) (uid : String) : List String :=
  (db.tags.filter (fun t => t.tag_owner == uid)).map TagRecord.tag_id

/-- The add/update loop of `get_user_tags`: upsert each remote tag and
strike its id off the local id list (`list.remove` deletes one
occurrence, and is only called when the id is present). -/
def syncLoop (owner : String) :
    List RemoteTag → List TagRecord → List String → List TagRecord × List String
  | [], db, ids => (db, ids)
  | rt :: rest, db, ids =>
    syncLoop owner rest (upsertTag db rt.id owner rt.name)
      (if rt.id ∈ ids then ids.erase rt.id else ids)

/-- `ToDoOversData.login`: password login.  Records the HTTP status on the
session; on 200, copies the identity fields out of the response body,
encrypts the token, upserts the user record and sets `logged_in`. -/
def login (s : Session) (resp : LoginResponse) (db : Database) :
    Bool × Session × Database :=
  let s := { s with return_code := resp.status }
  if resp.status = 200 then
    let s := { s with
      hab_user_id := resp.data_id,
      api_token := encrypt_text resp.data_apiToken,
      username := resp.data_username }
    (true, { s with logged_in := true },
      { db with users := upsertUser db.users s.hab_user_id s.username s.api_token })
  else
    (false, s, db)

/-- `ToDoOversData.login_api_key`: token login using the session's stored
`hab_user_id` and (encrypted) `api_token`. -/
def login_api_key (s : Session) (resp : UserResponse) (db : Database) :
    Bool × Session × Database :=
  let s := { s with return_code := resp.status }
  if resp.status = 200 then
    let s := { s with username := resp.profile_name }
    (true, { s with logged_in := true },
      { db with users := upsertUser db.users s.hab_user_id s.username s.api_token })
  else
    (false, s, db)

/-- `ToDoOversData.create_task`: POST a new to-do.  The request includes a
`date` field (now plus `task_days` days, iso-rendered) iff `task_days > 0`;
on HTTP 201 the id from the response body is stored on the session. -/
def create_task (s : Session) (now : Nat) (resp : TaskResponse) :
    Bool × Session × List TaskRequest :=
  if s.task_days > 0 then
    let req : TaskRequest :=
      { url := "https://habitica.com/api/v3/tasks/user",
        text := s.task_name, task_type := some "todo", notes := s.notes,
        date := some (isoformat (add_days now s.task_days)),
        priority := s.priority, tags := s.tags }
    let s := { s with return_code := resp.status }
    if resp.status = 201 then
      (true, { s with task_id := resp.data_id }, [req])
    else
      (false, s, [req])
  else
    let req : TaskRequest :=
      { url := "https://habitica.com/api/v3/tasks/user",
        text := s.task_name, task_type := some "todo", notes := s.notes,
        date := none, priority := s.priority, tags := s.tags }
    let s := { s with return_code := resp.status }
    if resp.status = 201 then
      (true, { s with task_id := resp.data_id }, [req])
    else
      (false, s, [req])

/-- `ToDoOversData.edit_task`: PUT to the task URL built from the session's
`task_id` (no precondition check on `task_id`).  Same due-date rule as
`create_task`; success iff HTTP 200, and the id from the response body is
then stored on the session. -/
def edit_task (s : Session) (now : Nat) (resp : TaskResponse) :
    Bool × Session × List TaskRequest :=
  let url := "https://habitica.com/api/v3/tasks/" ++ s.task_id
  if s.task_days > 0 then
    let req : TaskRequest :=
      { url := url, text := s.task_name, task_type := none, notes := s.notes,
        date := some (isoformat (add_days now s.task_days)),
        priority := s.priority, tags := s.tags }
    let s := { s with return_code := resp.status }
    if resp.status = 200 then
      (true, { s with task_id := resp.data_id }, [req])
    else
      (false, s, [req])
  else
    let req : TaskRequest :=
      { url := url, text := s.task_name, task_type := none, notes := s.notes,
        date := none, priority := s.priority, tags := s.tags }
    let s := { s with return_code := resp.status }
    if resp.status = 200 then
      (true, { s with task_id := resp.data_id }, [req])
    else
      (false, s, [req])

/-- `ToDoOversData.get_user_tags`: fetch the remote tag list.  On a non-200
status, or a 200 with an empty `data` list, return failure (`none`) and
leave the store untouched.  Otherwise run the reconciliation: upsert every
remote tag for this user, then delete every local tag id not seen in the
remote list, and return the fetched list. -/
def get_user_tags (s : Session) (resp : TagsResponse) (db : Database) :
    Option (List RemoteTag) × Session × Database :=
  if resp.status = 200 then
    if resp.data.isEmpty then
      (none, { s with return_code := resp.status }, db)
    else
      (some resp.data, { s with return_code := resp.status },
        { db with tags :=
            (deleteTags
              (syncLoop s.hab_user_id resp.data db.tags (localIds db s.hab_user_id)).1
              (syncLoop s.hab_user_id resp.data db.tags (localIds db s.hab_user_id)).2) })
  else
    (none, { s with return_code := resp.status }, db)

/-- A concrete session used by the witnesses. -/
def exSession : Session :=
  { username := "kp", hab_user_id := "u1", api_token := "tok",
    logged_in := true, tags := [], task_name := "water plants",
    task_days := 0, task_delay := 0, task_id := "t9", priority := "1",
    notes := "weekly", return_code := 0 }

/-- A concrete store used by the witnesses: user `u1` owns tags 2 and 3. -/
def exDb : Database :=
  { users := [⟨"u1", "kp", "tok"⟩],
    tags := [⟨"2", "u1", "work-old"⟩, ⟨"3", "u1", "errands"⟩] }

/-- A concrete successful `GET /tags` response: remote tags 1 and 2. -/
def exTagsResp : TagsResponse :=
  { status := 200, data := [⟨"1", "home"⟩, ⟨"2", "work"⟩] }

/-- A concrete failed `GET /tags` response (HTTP 404). -/
def exTagsRespBad : TagsResponse :=
  { status := 404, data := [⟨"1", "home"⟩] }

/-- A concrete successful password-login response for user `u1`. -/
def exLoginResp : LoginResponse :=
  { status := 200, data_id := "u1", data_apiToken := "secret",
    data_username := "kp" }

/-- A concrete failed password-login response (HTTP 401). -/
def exLoginRespBad : LoginResponse :=
  { status := 401, data_id := "", data_apiToken := "", data_username := "" }

/-- A concrete successful `GET /user` response. -/
def exUserResp : UserResponse := { status := 200, profile_name := "Katie" }

/-- A concrete failed `GET /user` response (HTTP 500). -/
def exUserRespBad : UserResponse := { status := 500, profile_name := "" }

/-- A concrete task create/edit response. -/
def exTaskResp : TaskResponse := { status := 200, data_id := "t42" }

/-- End-to-end scenario: remote reports tags 1 and 2 while the store holds
2 and 3 for the user; after the sync the store holds exactly tags 2
(updated in place) and 1 (added), with 3 deleted. -/
theorem end_to_end_scenario :
    (get_user_tags exSession exTagsResp exDb).2.2.tags =
      [⟨"2", "u1", "work"⟩, ⟨"1", "u1", "home"⟩] := by decide

theorem mem_upsertTag {t : TagRecord} {db : List TagRecord} {i o n : String}
    (h : t ∈ upsertTag db i o n) : t ∈ db ∨ t = ⟨i, o, n⟩ := by
  induction db with
  | nil =>
    simp only [upsertTag, List.mem_singleton] at h
    exact Or.inr h
  | cons u rest ih =>
    simp only [upsertTag] at h
    by_cases hu : u.tag_id = i
    · rw [if_pos hu] at h
      rcases List.mem_cons.mp h with h | h
      · exact Or.inr h
      · exact Or.inl (List.mem_cons_of_mem _ h)
    · rw [if_neg hu] at h
      rcases List.mem_cons.mp h with h | h
      · exact Or.inl (List.mem_cons.mpr (Or.inl h))
      · rcases ih h with h2 | h2
        · exact Or.inl (List.mem_cons_of_mem _ h2)
        · exact Or.inr h2

theorem mem_upsertTag_of_ne {t : TagRecord} {db : List TagRecord} {i o n : String}
    (h : t ∈ db) (hne : t.tag_id ≠ i) : t ∈ upsertTag db i o n := by
  induction db with
  | nil => cases h
  | cons u rest ih =>
    simp only [upsertTag]
    by_cases hu : u.tag_id = i
    · rw [if_pos hu]
      rcases List.mem_cons.mp h with h | h
      · exact absurd (by rw [h]; exact hu) hne
      · exact List.mem_cons_of_mem _ h
    · rw [if_neg hu]
      rcases List.mem_cons.mp h with h | h
      · exact List.mem_cons.mpr (Or.inl h)
      · exact List.mem_cons_of_mem _ (ih h)

theorem self_mem_upsertTag (db : List TagRecord) (i o n : String) :
    (⟨i, o, n⟩ : TagRecord) ∈ upsertTag db i o n := by
  induction db with
  | nil => simp [upsertTag]
  | cons u rest ih =>
    simp only [upsertTag]
    by_cases hu : u.tag_id = i
    · rw [if_pos hu]
      exact List.mem_cons_self _ _
    · rw [if_neg hu]
      exact List.mem_cons_of_mem _ ih

theorem mem_map_id_upsertTag {x : String} {db : List TagRecord} {i o n : String} :
    x ∈ (upsertTag db i o n).map TagRecord.tag_id ↔
      x ∈ db.map TagRecord.tag_id ∨ x = i := by
  induction db with
  | nil => simp [upsertTag]
  | cons u rest ih =>
    simp only [upsertTag]
    by_cases hu : u.tag_id = i
    · rw [if_pos hu]
      simp only [List.map_cons, List.mem_cons, hu]
      tauto
    · rw [if_neg hu]
      simp only [List.map_cons, List.mem_cons, ih]
      tauto

theorem nodup_upsertTag {db : List TagRecord} {i o n : String}
    (h : (db.map TagRecord.tag_id).Nodup) :
    ((upsertTag db i o n).map TagRecord.tag_id).Nodup := by
  induction db with
  | nil => simp [upsertTag]
  | cons u rest ih =>
    simp only [List.map_cons, List.nodup_cons] at h
    simp only [upsertTag]
    by_cases hu : u.tag_id = i
    · rw [if_pos hu]
      simp only [List.map_cons, List.nodup_cons]
      exact ⟨hu ▸ h.1, h.2⟩
    · rw [if_neg hu]
      simp only [List.map_cons, List.nodup_cons]
      refine ⟨fun hx => ?_, ih h.2⟩
      rcases mem_map_id_upsertTag.mp hx with hx | hx
      · exact h.1 hx
      · exact hu hx

theorem upsertTag_eq_of_mem {db : List TagRecord} {i o n : String}
    (hnd : (db.map TagRecord.tag_id).Nodup)
    (hmem : (⟨i, o, n⟩ : TagRecord) ∈ db) :
    upsertTag db i o n = db := by
  induction db with
  | nil => cases hmem
  | cons u rest ih =>
    simp only [List.map_cons, List.nodup_cons] at hnd
    simp only [upsertTag]
    by_cases hu : u.tag_id = i
    · rw [if_pos hu]
      rcases List.mem_cons.mp hmem with h | h
      · rw [h]
      · exact absurd (List.mem_map.mpr ⟨⟨i, o, n⟩, h, hu.symm⟩) hnd.1
    · rw [if_neg hu]
      have h : (⟨i, o, n⟩ : TagRecord) ∈ rest := by
        rcases List.mem_cons.mp hmem with h | h
        · exact absurd (by rw [← h]) hu
        · exact h
      rw [ih hnd.2 h]

theorem mem_deleteTag {t : TagRecord} {db : List TagRecord} {i : String} :
    t ∈ deleteTag db i ↔ t ∈ db ∧ t.tag_id ≠ i := by
  simp [deleteTag, List.mem_filter]

theorem mem_deleteTags {t : TagRecord} {L : List String} :
    ∀ {db : List TagRecord}, t ∈ deleteTags db L → t ∈ db ∧ t.tag_id ∉ L := by
  induction L with
  | nil =>
    intro db h
    simp only [deleteTags] at h
    simp [h]
  | cons i rest ih =>
    intro db h
    simp only [deleteTags] at h
    have h2 := ih h
    rw [mem_deleteTag] at h2
    refine ⟨h2.1.1, fun hmem => ?_⟩
    rcases List.mem_cons.mp hmem with h3 | h3
    · exact h2.1.2 h3
    · exact h2.2 h3

theorem mem_deleteTags_of_not_mem {t : TagRecord} {L : List String} :
    ∀ {db : List TagRecord}, t ∈ db → t.tag_id ∉ L → t ∈ deleteTags db L := by
  induction L with
  | nil =>
    intro db h _
    simpa [deleteTags] using h
  | cons i rest ih =>
    intro db h hL
    simp only [deleteTags]
    refine ih (mem_deleteTag.mpr ⟨h, fun hi => hL ?_⟩) fun hr =>
      hL (List.mem_cons_of_mem _ hr)
    rw [hi]
    exact List.mem_cons_self _ _

theorem nodup_deleteTags {L : List String} :
    ∀ {db : List TagRecord}, (db.map TagRecord.tag_id).Nodup →
      ((deleteTags db L).map TagRecord.tag_id).Nodup := by
  induction L with
  | nil =>
    intro db h
    simpa [deleteTags] using h
  | cons i rest ih =>
    intro db h
    simp only [deleteTags]
    exact ih (((List.filter_sublist db).map TagRecord.tag_id).nodup h)

theorem syncLoop_snd_mem {o : String} {data : List RemoteTag} {x : String} :
    ∀ {db : List TagRecord} {ids : List String}, ids.Nodup →
      (x ∈ (syncLoop o data db ids).2 ↔ x ∈ ids ∧ x ∉ data.map RemoteTag.id) := by
  induction data with
  | nil =>
    intro db ids _
    simp [syncLoop]
  | cons rt rest ih =>
    intro db ids h
    simp only [syncLoop]
    have hids : (if rt.id ∈ ids then ids.erase rt.id else ids) = ids.erase rt.id := by
      by_cases hm : rt.id ∈ ids
      · rw [if_pos hm]
      · rw [if_neg hm, List.erase_of_not_mem hm]
    rw [hids, ih (h.erase _), h.mem_erase_iff]
    simp only [List.map_cons, List.mem_cons]
    tauto

theorem syncLoop_fst_mem {o : String} {data : List RemoteTag} {t : TagRecord} :
    ∀ {db : List TagRecord} {ids : List String},
      t ∈ (syncLoop o data db ids).1 →
      t ∈ db ∨ ∃ rt ∈ data, t = ⟨rt.id, o, rt.name⟩ := by
  induction data with
  | nil =>
    intro db ids h
    exact Or.inl (by simpa [syncLoop] using h)
  | cons rt rest ih =>
    intro db ids h
    simp only [syncLoop] at h
    rcases ih h with h2 | h2
    · rcases mem_upsertTag h2 with h3 | h3
      · exact Or.inl h3
      · exact Or.inr ⟨rt, List.mem_cons_self _ _, h3⟩
    · obtain ⟨rt2, hrt2, ht⟩ := h2
      exact Or.inr ⟨rt2, List.mem_cons_of_mem _ hrt2, ht⟩

theorem syncLoop_fst_mem_of_not_remote {o : String} {data : List RemoteTag}
    {t : TagRecord} :
    ∀ {db : List TagRecord} {ids : List String},
      t ∈ db → t.tag_id ∉ data.map RemoteTag.id →
      t ∈ (syncLoop o data db ids).1 := by
  induction data with
  | nil =>
    intro db ids h _
    simpa [syncLoop] using h
  | cons rt rest ih =>
    intro db ids h hn
    simp only [List.map_cons, List.mem_cons] at hn
    push_neg at hn
    simp only [syncLoop]
    exact ih (mem_upsertTag_of_ne h hn.1) hn.2

theorem syncLoop_record_mem {o : String} {data : List RemoteTag}
    (hr : (data.map RemoteTag.id).Nodup) :
    ∀ rt ∈ data, ∀ {db : List TagRecord} {ids : List String},
      (⟨rt.id, o, rt.name⟩ : TagRecord) ∈ (syncLoop o data db ids).1 := by
  induction data with
  | nil =>
    intro rt h
    cases h
  | cons r0 rest ih =>
    intro rt hrt db ids
    simp only [List.map_cons, List.nodup_cons] at hr
    rcases List.mem_cons.mp hrt with he | he
    · subst he
      simp only [syncLoop]
      exact syncLoop_fst_mem_of_not_remote (self_mem_upsertTag _ _ _ _) hr.1
    · simp only [syncLoop]
      exact ih hr.2 rt he

theorem syncLoop_nodup {o : String} {data : List RemoteTag} :
    ∀ {db : List TagRecord} {ids : List String},
      (db.map TagRecord.tag_id).Nodup →
      ((syncLoop o data db ids).1.map TagRecord.tag_id).Nodup := by
  induction data with
  | nil =>
    intro db ids h
    simpa [syncLoop] using h
  | cons rt rest ih =>
    intro db ids h
    simp only [syncLoop]
    exact ih (nodup_upsertTag h)

theorem syncLoop_fst_eq_of_mem {o : String} {data : List RemoteTag} :
    ∀ {db : List TagRecord} {ids : List String},
      (db.map TagRecord.tag_id).Nodup →
      (∀ rt ∈ data, (⟨rt.id, o, rt.name⟩ : TagRecord) ∈ db) →
      (syncLoop o data db ids).1 = db := by
  induction data with
  | nil =>
    intro db ids _ _
    simp [syncLoop]
  | cons rt rest ih =>
    intro db ids hnd hall
    simp only [syncLoop]
    rw [upsertTag_eq_of_mem hnd (hall rt (List.mem_cons_self _ _))]
    exact ih hnd fun rt2 h => hall rt2 (List.mem_cons_of_mem _ h)

theorem localIds_nodup (db : Database) (uid : String)
    (h : (db.tags.map TagRecord.tag_id).Nodup) : (localIds db uid).Nodup :=
  (((List.filter_sublist db.tags).map TagRecord.tag_id).nodup h)

theorem mem_localIds {db : Database} {uid x : String} :
    x ∈ localIds db uid ↔ ∃ t ∈ db.tags, t.tag_owner = uid ∧ t.tag_id = x := by
  simp only [localIds, List.mem_map, List.mem_filter, beq_iff_eq]
  constructor
  · rintro ⟨t, ⟨ht, ho⟩, hid⟩
    exact ⟨t, ht, ho, hid⟩
  · rintro ⟨t, ht, ho, hid⟩
    exact ⟨t, ⟨ht, ho⟩, hid⟩

theorem get_user_tags_success_eq (s : Session) (resp : TagsResponse)
    (db : Database) (hstatus : resp.status = 200) (hdata : resp.data ≠ []) :
    get_user_tags s resp db =
      (some resp.data, { s with return_code := resp.status },
        { db with tags :=
            (deleteTags
              (syncLoop s.hab_user_id resp.data db.tags (localIds db s.hab_user_id)).1
              (syncLoop s.hab_user_id resp.data db.tags (localIds db s.hab_user_id)).2) }) := by
  simp [get_user_tags, hstatus, hdata]

theorem sync_record_mem (s : Session) (resp : TagsResponse) (db : Database)
    (hnd : (db.tags.map TagRecord.tag_id).Nodup)
    (hr : (resp.data.map RemoteTag.id).Nodup)
    (hstatus : resp.status = 200) :
    ∀ rt ∈ resp.data,
      (⟨rt.id, s.hab_user_id, rt.name⟩ : TagRecord) ∈
        (get_user_tags s resp db).2.2.tags := by
  intro rt hrt
  have hdata : resp.data ≠ [] := by
    intro h
    rw [h] at hrt
    cases hrt
  rw [get_user_tags_success_eq s resp db hstatus hdata]
  refine mem_deleteTags_of_not_mem (syncLoop_record_mem hr rt hrt) fun hmem => ?_
  have h2 := (syncLoop_snd_mem (localIds_nodup db s.hab_user_id hnd)).mp hmem
  exact h2.2 (List.mem_map.mpr ⟨rt, hrt, rfl⟩)

theorem sync_owned_iff (s : Session) (resp : TagsResponse) (db : Database)
    (hnd : (db.tags.map TagRecord.tag_id).Nodup)
    (hr : (resp.data.map RemoteTag.id).Nodup)
    (hstatus : resp.status = 200) (hdata : resp.data ≠ []) (x : String) :
    (∃ t ∈ (get_user_tags s resp db).2.2.tags,
        t.tag_owner = s.hab_user_id ∧ t.tag_id = x) ↔
      x ∈ resp.data.map RemoteTag.id := by
  constructor
  · rintro ⟨t, ht, ho, hid⟩
    rw [get_user_tags_success_eq s resp db hstatus hdata] at ht
    have h1 := mem_deleteTags ht
    rcases syncLoop_fst_mem h1.1 with h2 | h2
    · by_contra hxr
      refine h1.2 ((syncLoop_snd_mem (localIds_nodup db s.hab_user_id hnd)).mpr
        ⟨mem_localIds.mpr ⟨t, h2, ho, rfl⟩, ?_⟩)
      rw [hid]
      exact hxr
    · obtain ⟨rt, hrt, hteq⟩ := h2
      refine List.mem_map.mpr ⟨rt, hrt, ?_⟩
      rw [← hid, hteq]
  · intro hx
    obtain ⟨rt, hrt, hid⟩ := List.mem_map.mp hx
    exact ⟨⟨rt.id, s.hab_user_id, rt.name⟩,
      sync_record_mem s resp db hnd hr hstatus rt hrt, rfl, hid⟩

/-- C1: after a successful tag sync, the set of tag ids owned locally by
the session's user is exactly the set of tag ids reported by the remote
system: every remote id is present and every local id absent remotely has
been deleted.  (The store and the remote snapshot carry unique ids, per the
data model.) -/
theorem get_user_tags_owned_set_eq_remote (s : Session) (resp : TagsResponse)
    (db : Database)
    (hnd : (db.tags.map TagRecord.tag_id).Nodup)
    (hr : (resp.data.map RemoteTag.id).Nodup)
    (hstatus : resp.status = 200) (hdata : resp.data ≠ []) :
    ∀ x : String,
      (∃ t ∈ (get_user_tags s resp db).2.2.tags,
          t.tag_owner = s.hab_user_id ∧ t.tag_id = x) ↔
        ∃ rt ∈ resp.data, rt.id = x := by
  intro x
  rw [sync_owned_iff s resp db hnd hr hstatus hdata x]
  simp [List.mem_map]

/-- C1 witness: with local tags 2 and 3 (owned by `u1`) and remote tags 1
and 2, after the sync the id 1 is owned locally and the id 3 is not. -/
theorem get_user_tags_owned_set_eq_remote_witness :
    ((∃ t ∈ (get_user_tags exSession exTagsResp exDb).2.2.tags,
        t.tag_owner = exSession.hab_user_id ∧ t.tag_id = "1") ↔
      ∃ rt ∈ exTagsResp.data, rt.id = "1") ∧
    ((∃ t ∈ (get_user_tags exSession exTagsResp exDb).2.2.tags,
        t.tag_owner = exSession.hab_user_id ∧ t.tag_id = "3") ↔
      ∃ rt ∈ exTagsResp.data, rt.id = "3") :=
  ⟨get_user_tags_owned_set_eq_remote exSession exTagsResp exDb (by decide)
      (by decide) rfl (by decide) "1",
    get_user_tags_owned_set_eq_remote exSession exTagsResp exDb (by decide)
      (by decide) rfl (by decide) "3"⟩

/-- C9: step 1 of the reconciliation upserts, for every tag in the fetched
remote list, a record keyed by that tag's id with the current user as owner
and the remote tag's name as text; the record is still present in the final
store. -/
theorem get_user_tags_upserts_each_remote (s : Session) (resp : TagsResponse)
    (db : Database)
    (hnd : (db.tags.map TagRecord.tag_id).Nodup)
    (hr : (resp.data.map RemoteTag.id).Nodup)
    (hstatus : resp.status = 200) :
    ∀ rt ∈ resp.data,
      (⟨rt.id, s.hab_user_id, rt.name⟩ : TagRecord) ∈
        (get_user_tags s resp db).2.2.tags :=
  sync_record_mem s resp db hnd hr hstatus

/-- C9 witness: the remote tag `{id 2, name work}` ends up stored for `u1`
with text `work` (the old text `work-old` is overwritten). -/
theorem get_user_tags_upserts_each_remote_witness :
    (⟨"2", exSession.hab_user_id, "work"⟩ : TagRecord) ∈
      (get_user_tags exSession exTagsResp exDb).2.2.tags :=
  get_user_tags_upserts_each_remote exSession exTagsResp exDb (by decide)
    (by decide) rfl ⟨"2", "work"⟩ (by decide)

/-- C3: when the tag fetch fails — non-200 status, or a 200 whose `data`
list is empty — `get_user_tags` returns failure and the persisted store
(both user records and tag records) is completely unchanged; in
particular an empty remote tag list never wipes the local tags. -/
theorem get_user_tags_failure_no_mutation (s : Session) (resp : TagsResponse)
    (db : Database) (h : resp.status ≠ 200 ∨ resp.data = []) :
    (get_user_tags s resp db).1 = none ∧ (get_user_tags s resp db).2.2 = db := by
  rcases h with h | h
  · simp [get_user_tags, h]
  · by_cases hs : resp.status = 200
    · simp [get_user_tags, hs, h]
    · simp [get_user_tags, hs]

/-- C3 witness: a 404 tag fetch, and a 200 fetch with an empty body, both
return failure and leave the concrete store untouched. -/
theorem get_user_tags_failure_no_mutation_witness :
    ((get_user_tags exSession exTagsRespBad exDb).1 = none ∧
      (get_user_tags exSession exTagsRespBad exDb).2.2 = exDb) ∧
    ((get_user_tags exSession ⟨200, []⟩ exDb).1 = none ∧
      (get_user_tags exSession ⟨200, []⟩ exDb).2.2 = exDb) :=
  ⟨get_user_tags_failure_no_mutation exSession exTagsRespBad exDb
      (Or.inl (by decide)),
    get_user_tags_failure_no_mutation exSession ⟨200, []⟩ exDb
      (Or.inr rfl)⟩

/-- C5: tag reconciliation is idempotent — a second successful sync against
the same remote tag list leaves the persisted store exactly as the first
sync left it. -/
theorem get_user_tags_idempotent (s : Session) (resp : TagsResponse)
    (db : Database)
    (hnd : (db.tags.map TagRecord.tag_id).Nodup)
    (hr : (resp.data.map RemoteTag.id).Nodup)
    (hstatus : resp.status = 200) (hdata : resp.data ≠ []) :
    (get_user_tags (get_user_tags s resp db).2.1 resp
        (get_user_tags s resp db).2.2).2.2 =
      (get_user_tags s resp db).2.2 := by
  have heq := get_user_tags_success_eq s resp db hstatus hdata
  have huid : (get_user_tags s resp db).2.1.hab_user_id = s.hab_user_id := by
    rw [heq]
  have hnd1 : ((get_user_tags s resp db).2.2.tags.map TagRecord.tag_id).Nodup := by
    rw [heq]
    exact nodup_deleteTags (syncLoop_nodup hnd)
  have hall : ∀ rt ∈ resp.data,
      (⟨rt.id, s.hab_user_id, rt.name⟩ : TagRecord) ∈
        (get_user_tags s resp db).2.2.tags :=
    sync_record_mem s resp db hnd hr hstatus
  have howned : ∀ x ∈ localIds (get_user_tags s resp db).2.2 s.hab_user_id,
      x ∈ resp.data.map RemoteTag.id := by
    intro x hx
    obtain ⟨t, ht, ho, hid⟩ := mem_localIds.mp hx
    exact (sync_owned_iff s resp db hnd hr hstatus hdata x).mp ⟨t, ht, ho, hid⟩
  have h2nil : (syncLoop s.hab_user_id resp.data
      (get_user_tags s resp db).2.2.tags
      (localIds (get_user_tags s resp db).2.2 s.hab_user_id)).2 = [] := by
    rw [List.eq_nil_iff_forall_not_mem]
    intro x hx
    have h2 := (syncLoop_snd_mem (localIds_nodup _ _ hnd1)).mp hx
    exact h2.2 (howned x h2.1)
  rw [get_user_tags_success_eq _ resp _ hstatus hdata, huid]
  rw [syncLoop_fst_eq_of_mem hnd1 hall, h2nil]
  rfl

/-- C5 witness: running the concrete sync twice with the same remote list
leaves the store exactly as after the first run. -/
theorem get_user_tags_idempotent_witness :
    (get_user_tags (get_user_tags exSession exTagsResp exDb).2.1 exTagsResp
        (get_user_tags exSession exTagsResp exDb).2.2).2.2 =
      (get_user_tags exSession exTagsResp exDb).2.2 :=
  get_user_tags_idempotent exSession exTagsResp exDb (by decide) (by decide)
    rfl (by decide)

theorem filter_upsertUser (db : List UserRecord) (uid uname key : String) :
    ((upsertUser db uid uname key).filter (fun u => u.user_id == uid)).length =
      max 1 ((db.filter (fun u => u.user_id == uid)).length) := by
  induction db with
  | nil => simp [upsertUser]
  | cons u rest ih =>
    simp only [upsertUser]
    by_cases hu : u.user_id = uid
    · rw [if_pos hu]
      simp [List.filter_cons, hu]
    · rw [if_neg hu]
      simp [List.filter_cons, hu, ih]

/-- C6: when the remote end rejects a login (any non-200 status), both
`login` and `login_api_key` return failure, leave the session untouched
apart from recording the status in `return_code` (so `logged_in` and the
identity fields keep their old values), and write nothing to the store. -/
theorem login_failure_no_mutation (s : Session) (resp : LoginResponse)
    (resp2 : UserResponse) (db : Database)
    (h : resp.status ≠ 200) (h2 : resp2.status ≠ 200) :
    login s resp db = (false, { s with return_code := resp.status }, db) ∧
    login_api_key s resp2 db =
      (false, { s with return_code := resp2.status }, db) := by
  constructor
  · simp [login, h]
  · simp [login_api_key, h2]

/-- C6 witness: a 401 password login and a 500 token login both fail and
change nothing but the recorded status. -/
theorem login_failure_no_mutation_witness :
    login exSession exLoginRespBad exDb =
      (false, { exSession with return_code := exLoginRespBad.status }, exDb) ∧
    login_api_key exSession exUserRespBad exDb =
      (false, { exSession with return_code := exUserRespBad.status }, exDb) :=
  login_failure_no_mutation exSession exLoginRespBad exUserRespBad exDb
    (by decide) (by decide)

/-- C7: a successful password login followed by a successful token login
for the same user id leaves exactly one persisted user record carrying that
id — the second login updates the first login's record instead of creating
a duplicate.  (The store starts with at most one record for the id, the
unique-key invariant.) -/
theorem login_twice_single_user_record (s : Session) (resp : LoginResponse)
    (resp2 : UserResponse) (db : Database)
    (hc : (db.users.filter (fun u => u.user_id == resp.data_id)).length ≤ 1)
    (h1 : resp.status = 200) (h2 : resp2.status = 200) :
    (((login_api_key (login s resp db).2.1 resp2
          (login s resp db).2.2).2.2.users).filter
        (fun u => u.user_id == resp.data_id)).length = 1 := by
  simp [login, login_api_key, h1, h2, filter_upsertUser]
  omega

/-- C7 witness: starting from an empty store, password login then token
login for `u1` leaves exactly one record keyed `u1`. -/
theorem login_twice_single_user_record_witness :
    (((login_api_key (login exSession exLoginResp ⟨[], []⟩).2.1 exUserResp
          (login exSession exLoginResp ⟨[], []⟩).2.2).2.2.users).filter
        (fun u => u.user_id == exLoginResp.data_id)).length = 1 :=
  login_twice_single_user_record exSession exLoginResp exUserResp ⟨[], []⟩
    (by decide) rfl rfl

theorem create_task_requests (s : Session) (now : Nat) (resp : TaskResponse) :
    (create_task s now resp).2.2 =
      [{ url := "https://habitica.com/api/v3/tasks/user", text := s.task_name,
         task_type := some "todo", notes := s.notes,
         date := if s.task_days > 0 then
             some (isoformat (add_days now s.task_days)) else none,
         priority := s.priority, tags := s.tags }] := by
  by_cases hd : s.task_days > 0 <;> by_cases hs : resp.status = 201 <;>
    simp [create_task, hd, hs]

theorem edit_task_requests (s : Session) (now : Nat) (resp : TaskResponse) :
    (edit_task s now resp).2.2 =
      [{ url := "https://habitica.com/api/v3/tasks/" ++ s.task_id,
         text := s.task_name, task_type := none, notes := s.notes,
         date := if s.task_days > 0 then
             some (isoformat (add_days now s.task_days)) else none,
         priority := s.priority, tags := s.tags }] := by
  by_cases hd : s.task_days > 0 <;> by_cases hs : resp.status = 200 <;>
    simp [edit_task, hd, hs]

theorem create_task_eval (s : Session) (now : Nat) (resp : TaskResponse) :
    (create_task s now resp).1 = (resp.status == 201) ∧
    (create_task s now resp).2.1.task_id =
      (if resp.status = 201 then resp.data_id else s.task_id) := by
  by_cases hd : s.task_days > 0 <;> by_cases hs : resp.status = 201 <;>
    simp [create_task, hd, hs]

theorem edit_task_eval (s : Session) (now : Nat) (resp : TaskResponse) :
    (edit_task s now resp).1 = (resp.status == 200) ∧
    (edit_task s now resp).2.1.task_id =
      (if resp.status = 200 then resp.data_id else s.task_id) := by
  by_cases hd : s.task_days > 0 <;> by_cases hs : resp.status = 200 <;>
    simp [edit_task, hd, hs]

/-- C2: with `task_days = 0` the outgoing create and edit requests omit the
due-date field; with `task_days > 0` both requests carry a due date equal
to the rendering of call-time `now` plus that many days. -/
theorem task_requests_due_date (s : Session) (now : Nat) (resp : TaskResponse) :
    (s.task_days = 0 →
      (create_task s now resp).2.2.map TaskRequest.date = [none] ∧
      (edit_task s now resp).2.2.map TaskRequest.date = [none]) ∧
    (0 < s.task_days →
      (create_task s now resp).2.2.map TaskRequest.date =
          [some (isoformat (add_days now s.task_days))] ∧
      (edit_task s now resp).2.2.map TaskRequest.date =
          [some (isoformat (add_days now s.task_days))]) := by
  constructor
  · intro h
    constructor <;> simp [create_task_requests, edit_task_requests, h]
  · intro h
    constructor <;> simp [create_task_requests, edit_task_requests, h]

/-- C2 witness: the concrete zero-day session omits the date; the same
session with `task_days = 2` and `now = 5` sends the rendering of
`5 + 2 days` in both requests. -/
theorem task_requests_due_date_witness :
    ((create_task exSession 5 exTaskResp).2.2.map TaskRequest.date = [none] ∧
      (edit_task exSession 5 exTaskResp).2.2.map TaskRequest.date = [none]) ∧
    ((create_task { exSession with task_days := 2 } 5
          exTaskResp).2.2.map TaskRequest.date =
        [some (isoformat (add_days 5 2))] ∧
      (edit_task { exSession with task_days := 2 } 5
          exTaskResp).2.2.map TaskRequest.date =
        [some (isoformat (add_days 5 2))]) :=
  ⟨(task_requests_due_date exSession 5 exTaskResp).1 rfl,
    (task_requests_due_date { exSession with task_days := 2 } 5 exTaskResp).2
      (by decide)⟩

/-- C8: `create_task` succeeds exactly on HTTP 201; on 201 it stores the
response body's `data.id` as the session's task id, and on any other
status it fails and leaves the session's task id unchanged. -/
theorem create_task_status_and_id (s : Session) (now : Nat)
    (resp : TaskResponse) :
    (create_task s now resp).1 = (resp.status == 201) ∧
    (create_task s now resp).2.1.task_id =
      (if resp.status = 201 then resp.data_id else s.task_id) :=
  create_task_eval s now resp

/-- C10: `edit_task` on HTTP 200 overwrites the session's stored task id
with the id extracted from the response body's `data` object (and on any
other status leaves it unchanged). -/
theorem edit_task_overwrites_task_id (s : Session) (now : Nat)
    (resp : TaskResponse) :
    (edit_task s now resp).1 = (resp.status == 200) ∧
    (edit_task s now resp).2.1.task_id =
      (if resp.status = 200 then resp.data_id else s.task_id) :=
  edit_task_eval s now resp

/-- C4 counterexample: with an empty `task_id` the code does not fail with
a precondition violation and does not skip the network call — it issues one
HTTP PUT to the bare tasks URL, and on HTTP 200 it even reports success. -/
theorem edit_task_empty_id_counterexample :
    (edit_task { exSession with task_id := "" } 5 exTaskResp).2.2 ≠ [] ∧
    (edit_task { exSession with task_id := "" } 5 exTaskResp).1 = true ∧
    (edit_task { exSession with task_id := "" } 5
        exTaskResp).2.2.map TaskRequest.url =
      ["https://habitica.com/api/v3/tasks/"] := by
  refine ⟨by decide, rfl, rfl⟩

/-- C4 amended: `edit_task` performs no precondition check on `task_id`:
even with an empty `task_id` it still issues exactly one HTTP request,
aimed at the tasks URL with nothing appended, and succeeds iff the remote
answers HTTP 200. -/
theorem edit_task_empty_id_amended (s : Session) (now : Nat)
    (resp : TaskResponse) (h : s.task_id = "") :
    (edit_task s now resp).2.2.length = 1 ∧
    (edit_task s now resp).2.2.map TaskRequest.url =
      ["https://habitica.com/api/v3/tasks/"] ∧
    ((edit_task s now resp).1 = true ↔ resp.status = 200) := by
  refine ⟨by rw [edit_task_requests]; rfl, ?_, ?_⟩
  · rw [edit_task_requests]
    simp [h]
  · rw [(edit_task_eval s now resp).1]
    simp

/-- C4 amended witness: at the concrete empty-id session the request list
is the single bare-URL PUT and HTTP 200 yields success. -/
theorem edit_task_empty_id_amended_witness :
    (edit_task { exSession with task_id := "" } 5 exTaskResp).2.2.length = 1 ∧
    (edit_task { exSession with task_id := "" } 5
        exTaskResp).2.2.map TaskRequest.url =
      ["https://habitica.com/api/v3/tasks/"] ∧
    ((edit_task { exSession with task_id := "" } 5 exTaskResp).1 = true ↔
      exTaskResp.status = 200) :=
  edit_task_empty_id_amended { exSession with task_id := "" } 5 exTaskResp rfl
